import Mathlib

/-!
Verification of the trip_tracker data/auth layer.

This file gives a shallow embedding, in Lean 4, of the three storage
components of the trip_tracker application and proves the testable
properties stated for them.

* `services/auth.py` — credential store (`create_user`, `verify_user`);
* `services/data_manager.py` — expense store (`add_expense`,
  `list_expenses`, `update_expense`, `delete_expense`, `total_spent`);
* `services/settings_manager.py` — settings store (`get_settings`,
  `add_category`, `remove_category`, `add_account`, `remove_account`,
  `set_monthly_budget`).

Modelling conventions:

* The SQLite tables become Lean structures holding lists of rows;
  `AUTOINCREMENT` ids become an explicit `next_id` counter.
* SQL `REAL` amounts and budgets are modelled as rationals (`ℚ`).
* SQL `TEXT` dates stay ISO-8601 strings; SQLite compares `TEXT`
  byte-wise, which on these strings is the lexicographic order on
  code points, embedded here as `lexLt` over `String.data`.
* Python `str.strip`, `str.lower` and string comparison are embedded
  as structurally recursive functions over `String.data` (`trimStr`,
  `lowerStr`, `lexLt`) so that all definitions evaluate inside the
  kernel.
* Raising an exception is modelled by returning `Except.error` paired
  with the unchanged store (an exception aborts the statement, so the
  database keeps its previous contents).
* Timestamps (`datetime('now')`, `datetime.utcnow().isoformat()`) are
  passed in as an explicit `now : String` argument.
* The salted SHA-256 digest `_hash(pwd) = sha256(pwd + _SALT)` is kept
  abstract as a function parameter `hash : String → String`; the
  specification reasons about it only through injectivity.
-/

namespace TripTracker

/-! ## String primitives (Python `strip`, `lower`, `<` on SQLite TEXT) -/

/-- ASCII whitespace recognised when trimming, as in Python `str.strip`
for the whitespace actually occurring in this application. -/
def isWs (c : Char) : Bool :=
  c == ' ' || c == '\t' || c == '\r' || c == '\n'

/-- Python `s.strip()`: drop leading and trailing whitespace. -/
def trimStr (s : String) : String :=
  ⟨((s.data.dropWhile isWs).reverse.dropWhile isWs).reverse⟩

/-- Python `s.lower()`: lower-case every character. -/
def lowerStr (s : String) : String :=
  ⟨s.data.map Char.toLower⟩

/-- Lexicographic strict order on character lists by code point; this is
how SQLite compares the `TEXT` values (ISO dates, emails) stored here. -/
def lexLt : List Char → List Char → Bool
  | [], [] => false
  | [], _ :: _ => true
  | _ :: _, [] => false
  | a :: as, b :: bs =>
    if a.toNat < b.toNat then true
    else if b.toNat < a.toNat then false
    else lexLt as bs

/-- `a ≤ b` on strings, as SQLite's `<=` on `TEXT`. -/
def strLe (a b : String) : Bool :=
  !(lexLt b.data a.data)

/-! ## A generic insertion sort (models SQL `ORDER BY`) -/

/-- Insert `a` into `l` before the first element it is `le`-before. -/
def insertBy (le : α → α → Bool) (a : α) : List α → List α
  | [] => [a]
  | b :: bs => if le a b then a :: b :: bs else b :: insertBy le a bs

/-- Sort a list by the boolean comparator `le`; models the `ORDER BY`
clause of a query. -/
def sortBy (le : α → α → Bool) : List α → List α
  | [] => []
  | a :: as => insertBy le a (sortBy le as)

/-! ## Credential store (`services/auth.py`) -/

/-- The two failure modes of `create_user`. The code raises `ValueError`
with message "E-mail e senha são obrigatórios." (validation) or
"E-mail já cadastrado." (duplicate, converted from
`sqlite3.IntegrityError`); the spec names them `ValidationError` and
`DuplicateUserError`. -/
inductive AuthError
  | validationError
  | duplicateUserError
deriving DecidableEq

/-- One row of the `users` table (the `id` and `created_at` columns play
no role in any verified property and are omitted). -/
structure UserRow where
  email : String
  password_hash : String
deriving DecidableEq

/-- The `users` table; `email` is `UNIQUE`. -/
structure AuthDB where
  users : List UserRow
deriving DecidableEq

/-- `email.strip().lower()`, the normalization applied by `create_user`
and `verify_user`. -/
def normalizeEmail (e : String) : String :=
  lowerStr (trimStr e)

/-- `auth.create_user(email, password)`.  Normalizes the email, rejects
empty email/password, then inserts; an already-present email makes the
`INSERT` hit the `UNIQUE` constraint, surfaced as a duplicate error with
the table unchanged. -/
def create_user (hash : String → String) (email password : String)
    (db : AuthDB) : Except AuthError Unit × AuthDB :=
  let em := normalizeEmail email
  if em.isEmpty || password.isEmpty then
    (.error .validationError, db)
  else if db.users.any (fun u => u.email == em) then
    (.error .duplicateUserError, db)
  else
    (.ok (), ⟨db.users ++ [⟨em, hash password⟩]⟩)

/-- `auth.verify_user(email, password)`: false on empty field, false on
missing row, otherwise compares the stored hash with the hash of the
supplied password. -/
def verify_user (hash : String → String) (email password : String)
    (db : AuthDB) : Bool :=
  let em := normalizeEmail email
  if em.isEmpty || password.isEmpty then false
  else
    match db.users.find? (fun u => u.email == em) with
    | none => false
    | some u => u.password_hash == hash password

/-! ## Expense store (`services/data_manager.py`) -/

/-- One row of the `expenses` table. -/
structure ExpenseRow where
  id : Nat
  user_id : String
  date : String
  amount : ℚ
  currency : String
  category : String
  description : String
  account : String
  receipt_path : Option String
  created_at : String
  updated_at : String
deriving DecidableEq

/-- The `expenses` table together with the `AUTOINCREMENT` counter
(first id is 1, as in SQLite). -/
structure ExpenseDB where
  rows : List ExpenseRow
  next_id : Nat
deriving DecidableEq

/-- The single failure mode of `update_expense` (`ValueError` for an
unknown patch field; the spec calls it `ValidationError`). -/
inductive DMError
  | validationError
deriving DecidableEq

/-- `data_manager.add_expense(...)`: insert a new row, with `created_at`
and `updated_at` filled by `datetime('now')` (the `now` argument), and
return the new id. -/
def add_expense (db : ExpenseDB) (now : String) (user_id date : String)
    (amount : ℚ) (category description account : String)
    (receipt_path : Option String) (currency : String) :
    Nat × ExpenseDB :=
  let row : ExpenseRow :=
    { id := db.next_id, user_id := user_id, date := date, amount := amount,
      currency := currency, category := category, description := description,
      account := account, receipt_path := receipt_path,
      created_at := now, updated_at := now }
  (db.next_id, { rows := db.rows ++ [row], next_id := db.next_id + 1 })

/-- The conjunctive `WHERE` clause built by `list_expenses`:
`user_id = ?`, optional `date >= ?`, `date <= ?`, `category = ?`,
`account = ?`. -/
def matchesFilters (user_id : String)
    (start_date end_date category account : Option String)
    (r : ExpenseRow) : Bool :=
  (r.user_id == user_id)
  && (match start_date with | none => true | some s => strLe s r.date)
  && (match end_date with | none => true | some e => strLe r.date e)
  && (match category with | none => true | some c => r.category == c)
  && (match account with | none => true | some a => r.account == a)

/-- The `ORDER BY date DESC, id DESC` comparator: `a` comes before `b`
when `a.date > b.date`, or the dates are equal and `a.id ≥ b.id`. -/
def expenseBefore (a b : ExpenseRow) : Bool :=
  if lexLt b.date.data a.date.data then true
  else if lexLt a.date.data b.date.data then false
  else decide (b.id ≤ a.id)

/-- `data_manager.list_expenses(...)`: select the rows matching the
filters, ordered by `date DESC, id DESC`. -/
def list_expenses (db : ExpenseDB) (user_id : String)
    (start_date end_date category account : Option String) :
    List ExpenseRow :=
  sortBy expenseBefore
    (db.rows.filter (matchesFilters user_id start_date end_date category account))

/-- `data_manager.delete_expense(...)`: delete the row whose id and
owner both match; silently keep everything else. -/
def delete_expense (db : ExpenseDB) (expense_id : Nat) (user_id : String) :
    ExpenseDB :=
  { db with rows := db.rows.filter (fun r => !(r.id == expense_id && r.user_id == user_id)) }

/-- A value supplied for a patched column (string-valued column, the
`REAL` amount column, or SQL `NULL`); the dynamic `**fields` keyword
dictionary of `update_expense` becomes a key/value list. -/
inductive FieldVal
  | str (s : String)
  | num (q : ℚ)
  | null
deriving DecidableEq

/-- A patch: the keyword arguments of `update_expense`. -/
abbrev Patch := List (String × FieldVal)

/-- The whitelist `allowed` of `update_expense`. -/
def allowedFields : List String :=
  ["date", "amount", "currency", "category", "description", "account", "receipt_path"]

/-- Apply one `column = value` assignment of the generated `UPDATE`
statement; a value of the wrong shape for its column leaves the row as
is (such a call is never made by the application). -/
def applyField (r : ExpenseRow) (kv : String × FieldVal) : ExpenseRow :=
  match kv with
  | ("date", .str s) => { r with date := s }
  | ("amount", .num q) => { r with amount := q }
  | ("currency", .str s) => { r with currency := s }
  | ("category", .str s) => { r with category := s }
  | ("description", .str s) => { r with description := s }
  | ("account", .str s) => { r with account := s }
  | ("receipt_path", .str s) => { r with receipt_path := some s }
  | ("receipt_path", .null) => { r with receipt_path := none }
  | _ => r

/-- `data_manager.update_expense(...)`: empty patch returns immediately;
a key outside the whitelist raises `ValueError` before touching the
table; otherwise the matching row (id and owner) gets the patched
columns and a refreshed `updated_at`. -/
def update_expense (db : ExpenseDB) (now : String) (expense_id : Nat)
    (user_id : String) (fields : Patch) : Except DMError Unit × ExpenseDB :=
  if fields.isEmpty then
    (.ok (), db)
  else if fields.any (fun kv => !(allowedFields.contains kv.1)) then
    (.error .validationError, db)
  else
    (.ok (), { db with rows := db.rows.map (fun r =>
        if r.id == expense_id && r.user_id == user_id then
          { fields.foldl applyField r with updated_at := now }
        else r) })

/-- `data_manager.total_spent(...)`:
`SELECT COALESCE(SUM(amount), 0) ... WHERE user_id = ?` plus the same
optional date-range conjuncts as `list_expenses`; the empty sum is 0. -/
def total_spent (db : ExpenseDB) (user_id : String)
    (start_date end_date : Option String) : ℚ :=
  ((db.rows.filter (matchesFilters user_id start_date end_date none none)).map
      (fun r => r.amount)).sum

/-- The expense stores reachable from an empty table by `add_expense`
and `update_expense` calls whose supplied amounts are all non-negative
(this is the regime the UI guarantees with its `min_value=0.0` input). -/
inductive NonnegReach : ExpenseDB → Prop
  | init : NonnegReach ⟨[], 1⟩
  | add (db : ExpenseDB) (now user_id date : String) (amount : ℚ)
      (category description account : String) (receipt_path : Option String)
      (currency : String) (hdb : NonnegReach db) (hamt : 0 ≤ amount) :
      NonnegReach (add_expense db now user_id date amount category description
        account receipt_path currency).2
  | update (db : ExpenseDB) (now : String) (expense_id : Nat)
      (user_id : String) (fields : Patch) (hdb : NonnegReach db)
      (hf : ∀ q : ℚ, ("amount", FieldVal.num q) ∈ fields → 0 ≤ q) :
      NonnegReach (update_expense db now expense_id user_id fields).2

/-! ## Settings store (`services/settings_manager.py`) -/

/-- One row of the `user_settings` table (the two JSON-encoded list
columns become lists, the nullable `REAL` budget an `Option ℚ`). -/
structure SettingsRow where
  categories : List String
  accounts : List String
  monthly_budget : Option ℚ
deriving DecidableEq

/-- The `user_settings` table; `user_id` is the primary key. -/
structure SettingsDB where
  rows : List (String × SettingsRow)
deriving DecidableEq

/-- `DEFAULT_CATEGORIES` of `settings_manager.py`. -/
def DEFAULT_CATEGORIES : List String :=
  ["Alimentação", "Transporte", "Hospedagem", "Lazer", "Compras", "Outros"]

/-- `DEFAULT_ACCOUNTS` of `settings_manager.py`. -/
def DEFAULT_ACCOUNTS : List String := []

/-- `SELECT * FROM user_settings WHERE user_id = ?` (at most one row:
primary key). -/
def findSettings (db : SettingsDB) (user_id : String) : Option SettingsRow :=
  (db.rows.find? (fun p => p.1 == user_id)).map (fun p => p.2)

/-- `settings_manager._ensure_row`: `INSERT OR IGNORE` of the default
row. -/
def ensure_row (db : SettingsDB) (user_id : String) : SettingsDB :=
  match findSettings db user_id with
  | some _ => db
  | none => ⟨db.rows ++ [(user_id, ⟨DEFAULT_CATEGORIES, DEFAULT_ACCOUNTS, none⟩)]⟩

/-- `settings_manager.get_settings`: ensure the row exists, then read
it back (the read cannot miss after `ensure_row`; the `getD` default is
never used). -/
def get_settings (db : SettingsDB) (user_id : String) :
    SettingsRow × SettingsDB :=
  let db' := ensure_row db user_id
  ((findSettings db' user_id).getD ⟨[], [], none⟩, db')

/-- Which JSON-list column `_update_field` rewrites. -/
inductive ListField
  | categories
  | accounts
deriving DecidableEq

/-- `settings_manager._update_field`: overwrite one list column of the
user's row (no-op when the row does not exist). -/
def update_field (db : SettingsDB) (user_id : String) (field : ListField)
    (value : List String) : SettingsDB :=
  ⟨db.rows.map (fun p =>
    if p.1 == user_id then
      (p.1, match field with
        | .categories => { p.2 with categories := value }
        | .accounts => { p.2 with accounts := value })
    else p)⟩

/-- `settings_manager.add_category`: trim; no-op on empty result; no-op
if already present; otherwise append and persist. -/
def add_category (db : SettingsDB) (user_id category : String) : SettingsDB :=
  let category := trimStr category
  if category.isEmpty then db
  else
    let sdb := get_settings db user_id
    if sdb.1.categories.contains category then sdb.2
    else update_field sdb.2 user_id .categories (sdb.1.categories ++ [category])

/-- `settings_manager.remove_category`: remove the first exact match if
present (Python `list.remove`); no trimming. -/
def remove_category (db : SettingsDB) (user_id category : String) : SettingsDB :=
  let sdb := get_settings db user_id
  if sdb.1.categories.contains category then
    update_field sdb.2 user_id .categories (sdb.1.categories.erase category)
  else sdb.2

/-- `settings_manager.add_account`, same shape as `add_category`. -/
def add_account (db : SettingsDB) (user_id account : String) : SettingsDB :=
  let account := trimStr account
  if account.isEmpty then db
  else
    let sdb := get_settings db user_id
    if sdb.1.accounts.contains account then sdb.2
    else update_field sdb.2 user_id .accounts (sdb.1.accounts ++ [account])

/-- `settings_manager.remove_account`, same shape as `remove_category`. -/
def remove_account (db : SettingsDB) (user_id account : String) : SettingsDB :=
  let sdb := get_settings db user_id
  if sdb.1.accounts.contains account then
    update_field sdb.2 user_id .accounts (sdb.1.accounts.erase account)
  else sdb.2

/-- `settings_manager.set_monthly_budget`:
`UPDATE user_settings SET monthly_budget = ? WHERE user_id = ?` — an
unconditional overwrite that touches zero rows when the user has no
settings row yet. -/
def set_monthly_budget (db : SettingsDB) (user_id : String)
    (budget : Option ℚ) : SettingsDB :=
  ⟨db.rows.map (fun p =>
    if p.1 == user_id then (p.1, { p.2 with monthly_budget := budget }) else p)⟩

/-! ## Order lemmas for `lexLt` and the `ORDER BY` comparator -/

theorem lexLt_irrefl : ∀ x : List Char, lexLt x x = false
  | [] => rfl
  | a :: as => by simp [lexLt, lexLt_irrefl as]

theorem lexLt_trans :
    ∀ {x y z : List Char}, lexLt x y = true → lexLt y z = true → lexLt x z = true
  | [], [], _, h1, _ => by simp [lexLt] at h1
  | [], _ :: _, [], _, h2 => by simp [lexLt] at h2
  | [], _ :: _, _ :: _, _, _ => rfl
  | _ :: _, [], _, h1, _ => by simp [lexLt] at h1
  | _ :: _, _ :: _, [], _, h2 => by simp [lexLt] at h2
  | a :: as, b :: bs, c :: cs, h1, h2 => by
    simp only [lexLt] at h1 h2 ⊢
    rcases Nat.lt_trichotomy a.toNat b.toNat with hab | hab | hab
    · rcases Nat.lt_trichotomy b.toNat c.toNat with hbc | hbc | hbc
      · have hac : a.toNat < c.toNat := Nat.lt_trans hab hbc
        simp [hac]
      · have hac : a.toNat < c.toNat := hbc ▸ hab
        simp [hac]
      · have h2a : ¬ b.toNat < c.toNat := Nat.lt_asymm hbc
        simp [h2a, hbc] at h2
    · simp only [hab, lt_self_iff_false, if_false] at h1
      rcases Nat.lt_trichotomy b.toNat c.toNat with hbc | hbc | hbc
      · have hac : a.toNat < c.toNat := hab ▸ hbc
        simp [hac]
      · have hac1 : ¬ a.toNat < c.toNat := by omega
        have hac2 : ¬ c.toNat < a.toNat := by omega
        simp only [hbc, lt_self_iff_false, if_false] at h2
        simp [hac1, hac2]
        exact lexLt_trans h1 h2
      · have h2a : ¬ b.toNat < c.toNat := Nat.lt_asymm hbc
        simp [h2a, hbc] at h2
    · have h1a : ¬ a.toNat < b.toNat := Nat.lt_asymm hab
      simp [h1a, hab] at h1

theorem eq_of_not_lexLt :
    ∀ {x y : List Char}, lexLt x y = false → lexLt y x = false → x = y
  | [], [], _, _ => rfl
  | [], _ :: _, h1, _ => by simp [lexLt] at h1
  | _ :: _, [], _, h2 => by simp [lexLt] at h2
  | a :: as, b :: bs, h1, h2 => by
    simp only [lexLt] at h1 h2
    rcases Nat.lt_trichotomy a.toNat b.toNat with hab | hab | hab
    · simp [hab] at h1
    · have hab1 : ¬ a.toNat < b.toNat := by omega
      have hab2 : ¬ b.toNat < a.toNat := by omega
      simp only [hab1, hab2, if_false] at h1 h2
      have hchar : a = b := Char.ext (UInt32.ext (by simpa [Char.toNat] using hab))
      rw [hchar, eq_of_not_lexLt h1 h2]
    · simp [hab] at h2

theorem expenseBefore_total (a b : ExpenseRow) :
    expenseBefore a b = true ∨ expenseBefore b a = true := by
  simp only [expenseBefore]
  rcases h1 : lexLt b.date.data a.date.data with _ | _
  · rcases h2 : lexLt a.date.data b.date.data with _ | _
    · rcases Nat.le_total b.id a.id with hid | hid
      · exact Or.inl (by simp [h1, h2, hid])
      · exact Or.inr (by simp [h1, h2, hid])
    · exact Or.inr (by simp [h2])
  · exact Or.inl (by simp [h1])

theorem expenseBefore_eq_true_iff (a b : ExpenseRow) :
    expenseBefore a b = true ↔
      lexLt b.date.data a.date.data = true
      ∨ (lexLt b.date.data a.date.data = false
          ∧ lexLt a.date.data b.date.data = false ∧ b.id ≤ a.id) := by
  simp only [expenseBefore]
  split
  · simp_all
  · split <;> simp_all

theorem expenseBefore_trans (a b c : ExpenseRow)
    (h1 : expenseBefore a b = true) (h2 : expenseBefore b c = true) :
    expenseBefore a c = true := by
  rw [expenseBefore_eq_true_iff] at h1 h2 ⊢
  rcases h1 with h1 | ⟨h1a, h1b, h1c⟩
  · rcases h2 with h2 | ⟨h2a, h2b, h2c⟩
    · exact Or.inl (lexLt_trans h2 h1)
    · have e : c.date.data = b.date.data := eq_of_not_lexLt h2a h2b
      exact Or.inl (by rw [e]; exact h1)
  · rcases h2 with h2 | ⟨h2a, h2b, h2c⟩
    · have e : b.date.data = a.date.data := eq_of_not_lexLt h1a h1b
      exact Or.inl (by rw [← e]; exact h2)
    · have e1 : b.date.data = a.date.data := eq_of_not_lexLt h1a h1b
      have e2 : c.date.data = b.date.data := eq_of_not_lexLt h2a h2b
      refine Or.inr ⟨?_, ?_, Nat.le_trans h2c h1c⟩
      · rw [e2, e1]; exact lexLt_irrefl _
      · rw [e2, e1]; exact lexLt_irrefl _

/-! ## Sorting lemmas -/

theorem insertBy_perm (le : α → α → Bool) (a : α) (l : List α) :
    List.Perm (insertBy le a l) (a :: l) := by
  induction l with
  | nil => rfl
  | cons b bs ih =>
    simp only [insertBy]
    split
    · rfl
    · exact (ih.cons b).trans (List.Perm.swap a b bs)

theorem sortBy_perm (le : α → α → Bool) (l : List α) :
    List.Perm (sortBy le l) l := by
  induction l with
  | nil => rfl
  | cons a as ih => exact (insertBy_perm le a (sortBy le as)).trans (ih.cons a)

theorem pairwise_insertBy (le : α → α → Bool)
    (htot : ∀ a b, le a b = true ∨ le b a = true)
    (htrans : ∀ a b c, le a b = true → le b c = true → le a c = true)
    (a : α) :
    ∀ {l : List α}, l.Pairwise (fun x y => le x y = true) →
      (insertBy le a l).Pairwise (fun x y => le x y = true)
  | [], _ => by simp [insertBy]
  | b :: bs, h => by
    rw [List.pairwise_cons] at h
    obtain ⟨hb, hbs⟩ := h
    simp only [insertBy]
    split
    · rename_i hab
      rw [List.pairwise_cons]
      refine ⟨?_, List.Pairwise.cons hb hbs⟩
      intro x hx
      rcases List.mem_cons.mp hx with rfl | hx'
      · exact hab
      · exact htrans a b x hab (hb x hx')
    · rename_i hab
      have hba : le b a = true := by
        rcases htot a b with h' | h'
        · exact absurd h' hab
        · exact h'
      rw [List.pairwise_cons]
      refine ⟨?_, pairwise_insertBy le htot htrans a hbs⟩
      intro x hx
      rcases List.mem_cons.mp ((insertBy_perm le a bs).mem_iff.mp hx) with rfl | hx'
      · exact hba
      · exact hb x hx'

theorem pairwise_sortBy (le : α → α → Bool)
    (htot : ∀ a b, le a b = true ∨ le b a = true)
    (htrans : ∀ a b c, le a b = true → le b c = true → le a c = true) :
    ∀ l : List α, (sortBy le l).Pairwise (fun x y => le x y = true)
  | [] => by simp [sortBy]
  | a :: as =>
    pairwise_insertBy le htot htrans a (pairwise_sortBy le htot htrans as)

/-! ## Credential store lemmas -/

/-- Anatomy of a successful `create_user` call: both fields were
non-empty, the normalized email was free, and the new row was appended. -/
theorem create_user_ok (hash : String → String) (email password : String)
    (db db' : AuthDB)
    (h : create_user hash email password db = (.ok (), db')) :
    (normalizeEmail email).isEmpty = false ∧ password.isEmpty = false
    ∧ (∀ u ∈ db.users, (u.email == normalizeEmail email) = false)
    ∧ db' = ⟨db.users ++ [⟨normalizeEmail email, hash password⟩]⟩ := by
  simp only [create_user] at h
  split at h
  · simp at h
  · split at h
    · simp at h
    · rename_i h1 h2
      simp only [Bool.or_eq_true, not_or, Bool.not_eq_true] at h1
      simp only [List.any_eq_true, not_exists, not_and, Bool.not_eq_true] at h2
      simp only [Prod.mk.injEq, true_and] at h
      exact ⟨h1.1, h1.2, h2, h.symm⟩

/-- After a successful registration, looking up the normalized email in
the new table finds exactly the new row. -/
theorem find_after_create (hash : String → String) (email password : String)
    (db db' : AuthDB)
    (h : create_user hash email password db = (.ok (), db')) :
    db'.users.find? (fun u => u.email == normalizeEmail email)
      = some ⟨normalizeEmail email, hash password⟩ := by
  obtain ⟨-, -, hfree, hdb'⟩ := create_user_ok hash email password db db' h
  subst hdb'
  have hnone : db.users.find? (fun u => u.email == normalizeEmail email) = none :=
    List.find?_eq_none.mpr (fun u hu => by simp [hfree u hu])
  simp [List.find?_append, hnone, List.find?_cons]

/-- Claim C1: after a successful `create_user(email, password)`, and
assuming the salted hash is injective, `verify_user` on any email with
the same normalization returns true exactly for the registered
password, and returns false for every email that has no registered
user. -/
theorem verify_user_after_create (hash : String → String)
    (hinj : Function.Injective hash) (email password : String)
    (db db' : AuthDB)
    (hc : create_user hash email password db = (.ok (), db')) :
    (∀ e, normalizeEmail e = normalizeEmail email →
      verify_user hash e password db' = true)
    ∧ (∀ e other, normalizeEmail e = normalizeEmail email →
      other ≠ password → verify_user hash e other db' = false)
    ∧ (∀ e p, (∀ u ∈ db'.users, ¬ u.email = normalizeEmail e) →
      verify_user hash e p db' = false) := by
  obtain ⟨hne, hnp, -, -⟩ := create_user_ok hash email password db db' hc
  have hfind := find_after_create hash email password db db' hc
  refine ⟨?_, ?_, ?_⟩
  · intro e hnorm
    simp only [verify_user, hnorm, hne, hnp, Bool.or_self, if_false,
      Bool.false_eq_true, hfind, beq_self_eq_true]
  · intro e other hnorm hother
    rcases ho : other.isEmpty with _ | _
    · simp only [verify_user, hnorm, hne, ho, Bool.or_self, if_false,
        Bool.false_eq_true, hfind]
      exact beq_eq_false_iff_ne.mpr (fun hh => hother (hinj hh).symm)
    · simp [verify_user, ho]
  · intro e p hnone
    rcases hep : ((normalizeEmail e).isEmpty || p.isEmpty) with _ | _
    · have : db'.users.find? (fun u => u.email == normalizeEmail e) = none :=
        List.find?_eq_none.mpr (fun u hu => by simp [hnone u hu])
      simp [verify_user, hep, this]
    · simp [verify_user, hep]

/-- Witness for C1 at concrete inputs (the identity function standing
in for the injective hash). -/
theorem verify_user_after_create_witness :
    Function.Injective (fun s : String => s)
    ∧ verify_user (fun s => s) " A@B.com " "pw" ⟨[⟨"a@b.com", "pw"⟩]⟩ = true
    ∧ verify_user (fun s => s) "a@b.com" "other" ⟨[⟨"a@b.com", "pw"⟩]⟩ = false
    ∧ verify_user (fun s => s) "nobody@b.com" "pw" ⟨[⟨"a@b.com", "pw"⟩]⟩ = false :=
  ⟨fun _ _ h => h,
   (verify_user_after_create (fun s => s) (fun _ _ h => h) " A@B.com " "pw"
      ⟨[]⟩ ⟨[⟨"a@b.com", "pw"⟩]⟩ rfl).1 " A@B.com " rfl,
   (verify_user_after_create (fun s => s) (fun _ _ h => h) " A@B.com " "pw"
      ⟨[]⟩ ⟨[⟨"a@b.com", "pw"⟩]⟩ rfl).2.1 "a@b.com" "other" (by decide)
      (by decide),
   (verify_user_after_create (fun s => s) (fun _ _ h => h) " A@B.com " "pw"
      ⟨[]⟩ ⟨[⟨"a@b.com", "pw"⟩]⟩ rfl).2.2 "nobody@b.com" "pw" (by decide)⟩

/-- A registration with a non-empty normalized email, a non-empty
password and a free email slot succeeds and appends the new row. -/
theorem create_user_succeeds (hash : String → String) (email password : String)
    (db : AuthDB) (hne : (normalizeEmail email).isEmpty = false)
    (hp : password.isEmpty = false)
    (hfree : ∀ u ∈ db.users, (u.email == normalizeEmail email) = false) :
    create_user hash email password db
      = (.ok (), ⟨db.users ++ [⟨normalizeEmail email, hash password⟩]⟩) := by
  have hany : db.users.any (fun u => u.email == normalizeEmail email) = false :=
    List.any_eq_false.mpr (fun u hu => by simp [hfree u hu])
  simp only [create_user, hne, hp, hany, Bool.or_self, if_false,
    Bool.false_eq_true]

/-- Claim C2: for any two emails of equal normalization and non-empty
passwords, registering the first (non-empty normalized email, address
still free) succeeds, and immediately registering the second fails with
the duplicate-user error — distinct from the validation error used for
empty fields — leaving the user table unchanged. -/
theorem create_user_duplicate (hash : String → String)
    (e1 e2 p1 p2 : String) (db : AuthDB)
    (hnorm : normalizeEmail e2 = normalizeEmail e1)
    (hne : (normalizeEmail e1).isEmpty = false)
    (hp1 : p1.isEmpty = false) (hp2 : p2.isEmpty = false)
    (hfree : ∀ u ∈ db.users, (u.email == normalizeEmail e1) = false) :
    create_user hash e1 p1 db
      = (.ok (), ⟨db.users ++ [⟨normalizeEmail e1, hash p1⟩]⟩)
    ∧ create_user hash e2 p2 ⟨db.users ++ [⟨normalizeEmail e1, hash p1⟩]⟩
      = (.error .duplicateUserError,
         ⟨db.users ++ [⟨normalizeEmail e1, hash p1⟩]⟩)
    ∧ create_user hash e2 "" ⟨db.users ++ [⟨normalizeEmail e1, hash p1⟩]⟩
      = (.error .validationError,
         ⟨db.users ++ [⟨normalizeEmail e1, hash p1⟩]⟩)
    ∧ AuthError.duplicateUserError ≠ AuthError.validationError := by
  have hdup : (db.users ++ [UserRow.mk (normalizeEmail e1) (hash p1)]).any
      (fun u => u.email == normalizeEmail e1) = true := by
    simp [List.any_append]
  refine ⟨create_user_succeeds hash e1 p1 db hne hp1 hfree, ?_, ?_, by simp⟩
  · simp only [create_user, hnorm, hne, hp2, Bool.or_self, if_false,
      Bool.false_eq_true, hdup, if_true]
  · simp [create_user, String.isEmpty]

/-- Witness for C2 at the concrete colliding pair `" A@B.com "` and
`"a@b.com"`. -/
theorem create_user_duplicate_witness :
    normalizeEmail "a@b.com" = normalizeEmail " A@B.com "
    ∧ "pw".isEmpty = false
    ∧ create_user (fun s => s) " A@B.com " "pw" ⟨[]⟩
        = (.ok (), ⟨[⟨"a@b.com", "pw"⟩]⟩)
    ∧ create_user (fun s => s) "a@b.com" "pw" ⟨[⟨"a@b.com", "pw"⟩]⟩
        = (.error .duplicateUserError, ⟨[⟨"a@b.com", "pw"⟩]⟩) :=
  ⟨by decide, rfl,
   (create_user_duplicate (fun s => s) " A@B.com " "a@b.com" "pw" "pw"
      ⟨[]⟩ (by decide) (by decide) rfl rfl (by decide)).1,
   (create_user_duplicate (fun s => s) " A@B.com " "a@b.com" "pw" "pw"
      ⟨[]⟩ (by decide) (by decide) rfl rfl (by decide)).2.1⟩

/-! ## Expense store lemmas -/

/-- A row appears in a `list_expenses` result exactly when it is stored
and passes the filters. -/
theorem mem_list_expenses (db : ExpenseDB) (uid : String)
    (s e c acc : Option String) (r : ExpenseRow) :
    r ∈ list_expenses db uid s e c acc ↔
      r ∈ db.rows ∧ matchesFilters uid s e c acc r = true := by
  unfold list_expenses
  rw [(sortBy_perm _ _).mem_iff, List.mem_filter]

/-- Claim C3: `add_expense` followed by an unfiltered `list_expenses`
for the same user returns a row that reproduces every supplied field
exactly (round-trip), for any valid tuple with `amount ≥ 0`. -/
theorem add_expense_roundtrip (db : ExpenseDB) (now uid date : String)
    (amount : ℚ) (category description account : String)
    (receipt_path : Option String) (currency : String)
    (hamt : 0 ≤ amount) :
    ∃ r ∈ list_expenses (add_expense db now uid date amount category
        description account receipt_path currency).2 uid none none none none,
      r.id = (add_expense db now uid date amount category description account
        receipt_path currency).1
      ∧ r.date = date ∧ r.amount = amount ∧ r.currency = currency
      ∧ r.category = category ∧ r.description = description
      ∧ r.account = account ∧ r.receipt_path = receipt_path := by
  refine ⟨{ id := db.next_id, user_id := uid, date := date, amount := amount,
            currency := currency, category := category,
            description := description, account := account,
            receipt_path := receipt_path, created_at := now,
            updated_at := now }, ?_, rfl, rfl, rfl, rfl, rfl, rfl, rfl, rfl⟩
  refine (mem_list_expenses _ _ _ _ _ _ _).mpr ⟨?_, ?_⟩
  · simp [add_expense]
  · simp [matchesFilters]

/-- Witness for C3 at a concrete expense. -/
theorem add_expense_roundtrip_witness :
    (0 : ℚ) ≤ 5
    ∧ ∃ r ∈ list_expenses (add_expense ⟨[], 1⟩ "t" "u" "2024-01-01" 5 "cat"
        "d" "acc" none "BRL").2 "u" none none none none,
      r.id = (add_expense ⟨[], 1⟩ "t" "u" "2024-01-01" 5 "cat" "d" "acc"
        none "BRL").1
      ∧ r.date = "2024-01-01" ∧ r.amount = 5 ∧ r.currency = "BRL"
      ∧ r.category = "cat" ∧ r.description = "d" ∧ r.account = "acc"
      ∧ r.receipt_path = none :=
  ⟨by decide,
   add_expense_roundtrip ⟨[], 1⟩ "t" "u" "2024-01-01" 5 "cat" "d" "acc" none
     "BRL" (by decide)⟩

/-- Claim C4: a patch with any key outside the whitelist makes
`update_expense` fail with the validation error and leaves the store —
every row, timestamps included — unchanged; the empty patch is a
successful no-op. -/
theorem update_expense_rejects_unknown (db : ExpenseDB) (now : String)
    (eid : Nat) (uid : String) :
    (∀ fields : Patch,
      (∃ kv ∈ fields, allowedFields.contains kv.1 = false) →
      update_expense db now eid uid fields = (.error .validationError, db))
    ∧ update_expense db now eid uid [] = (.ok (), db) := by
  constructor
  · intro fields h
    obtain ⟨kv, hmem, hbad⟩ := h
    have hne : fields.isEmpty = false := by
      cases fields
      · simp at hmem
      · rfl
    have hany : fields.any (fun kv => !(allowedFields.contains kv.1)) = true :=
      List.any_eq_true.mpr ⟨kv, hmem, by rw [hbad]; rfl⟩
    simp only [update_expense]
    rw [hne, hany]
    simp
  · rfl

/-- Witness for C4 with the patch key `"user_id"` from the spec's
example. -/
theorem update_expense_rejects_unknown_witness :
    (∃ kv ∈ ([("user_id", FieldVal.str "x")] : Patch),
      allowedFields.contains kv.1 = false)
    ∧ update_expense ⟨[], 1⟩ "t" 1 "u" [("user_id", FieldVal.str "x")]
        = (.error .validationError, ⟨[], 1⟩)
    ∧ update_expense ⟨[], 1⟩ "t" 1 "u" [] = (.ok (), ⟨[], 1⟩) :=
  ⟨by decide,
   (update_expense_rejects_unknown ⟨[], 1⟩ "t" 1 "u").1
     [("user_id", FieldVal.str "x")] (by decide),
   (update_expense_rejects_unknown ⟨[], 1⟩ "t" 1 "u").2⟩

/-- One `UPDATE` assignment either keeps the amount or sets it to the
value carried by an `("amount", num q)` patch entry. -/
theorem amount_applyField (r : ExpenseRow) (kv : String × FieldVal) :
    (applyField r kv).amount = r.amount
    ∨ kv = ("amount", FieldVal.num ((applyField r kv).amount)) := by
  rcases kv with ⟨k, v⟩
  simp only [applyField]
  split <;> simp_all

/-- A whole patch whose amount entries are non-negative preserves
non-negativity of the amount. -/
theorem amount_foldl_nonneg (fields : Patch) (r : ExpenseRow)
    (hr : 0 ≤ r.amount)
    (hf : ∀ q : ℚ, ("amount", FieldVal.num q) ∈ fields → 0 ≤ q) :
    0 ≤ (fields.foldl applyField r).amount := by
  induction fields generalizing r with
  | nil => simpa using hr
  | cons kv rest ih =>
    rw [List.foldl_cons]
    refine ih (applyField r kv) ?_ ?_
    · rcases amount_applyField r kv with h | h
      · rw [h]; exact hr
      · exact hf _ (by rw [← h]; exact List.mem_cons_self kv rest)
    · intro q hq
      exact hf q (List.mem_cons_of_mem kv hq)

/-- Store-level invariant: along `add_expense`/`update_expense` runs
whose supplied amounts are non-negative, every stored row keeps a
non-negative amount. -/
theorem rows_nonneg_of_reach (db : ExpenseDB) (h : NonnegReach db) :
    ∀ r ∈ db.rows, 0 ≤ r.amount := by
  induction h with
  | init => simp
  | add db now uid date amt category description account rcpt cur hdb hamt ih =>
    intro r hr
    simp only [add_expense, List.mem_append, List.mem_singleton] at hr
    rcases hr with hr | rfl
    · exact ih r hr
    · simpa using hamt
  | update db now eid uid fields hdb hf ih =>
    intro r hr
    simp only [update_expense] at hr
    split at hr
    · exact ih r hr
    · split at hr
      · exact ih r hr
      · simp only [List.mem_map] at hr
        obtain ⟨r0, hr0, heq⟩ := hr
        by_cases hm : (r0.id == eid && r0.user_id == uid) = true
        · rw [if_pos hm] at heq
          rw [← heq]
          exact amount_foldl_nonneg fields r0 (ih r0 hr0) hf
        · rw [if_neg hm] at heq
          rw [← heq]
          exact ih r0 hr0

/-- Counterexample to C5 as stated: the storage layer performs no
amount validation, so a single `add_expense` call with amount `-1`
yields a stored, listed row with a negative amount. -/
theorem expense_nonneg_counterexample :
    ((list_expenses (add_expense ⟨[], 1⟩ "t" "u" "2024-01-01" (-1) "cat" "d"
        "acc" none "BRL").2 "u" none none none none).map (fun r => r.amount))
      = [(-1 : ℚ)]
    ∧ ¬ (0 : ℚ) ≤ (-1 : ℚ) := by decide

/-- Claim C5 (amended): provided every `add_expense` call and every
`("amount", ...)` patch entry of every `update_expense` call supplies a
non-negative amount — which is what the UI guarantees — every row
returned by `list_expenses` has a non-negative amount. -/
theorem expense_amounts_nonneg (db : ExpenseDB) (h : NonnegReach db)
    (uid : String) (s e c acc : Option String) :
    ∀ r ∈ list_expenses db uid s e c acc, 0 ≤ r.amount := by
  intro r hr
  exact rows_nonneg_of_reach db h r
    ((mem_list_expenses db uid s e c acc r).mp hr).1

/-- Witness for the amended C5 on a concrete one-insert run. -/
theorem expense_amounts_nonneg_witness :
    NonnegReach (add_expense ⟨[], 1⟩ "t" "u" "2024-01-01" 5 "cat" "d" "acc"
        none "BRL").2
    ∧ (0 : ℚ) ≤ ({ id := 1, user_id := "u", date := "2024-01-01", amount := 5,
                   currency := "BRL", category := "cat", description := "d",
                   account := "acc", receipt_path := none, created_at := "t",
                   updated_at := "t" } : ExpenseRow).amount :=
  ⟨NonnegReach.add ⟨[], 1⟩ "t" "u" "2024-01-01" 5 "cat" "d" "acc" none "BRL"
     NonnegReach.init (by decide),
   expense_amounts_nonneg _
     (NonnegReach.add ⟨[], 1⟩ "t" "u" "2024-01-01" 5 "cat" "d" "acc" none "BRL"
       NonnegReach.init (by decide)) "u" none none none none _ (by decide)⟩

/-- Claim C6: `list_expenses` results are ordered by date descending
with id descending as tie-break; concretely, inserting an expense dated
2024-01-01 (id 1) then one dated 2024-01-02 (id 2) lists id 2 first. -/
theorem list_expenses_ordered (db : ExpenseDB) (uid : String)
    (s e c acc : Option String) :
    (list_expenses db uid s e c acc).Pairwise
      (fun x y => expenseBefore x y = true)
    ∧ (list_expenses (add_expense (add_expense ⟨[], 1⟩ "t1" "u" "2024-01-01"
          10 "cat" "d" "acc" none "BRL").2 "t2" "u" "2024-01-02" 20 "cat" "d"
          "acc" none "BRL").2 "u" none none none none).map (fun r => r.id)
        = [2, 1] := by
  constructor
  · exact pairwise_sortBy expenseBefore expenseBefore_total expenseBefore_trans _
  · decide

/-- Claim C7: `total_spent` equals the sum of the amounts of exactly
the rows `list_expenses` returns under the same date-range filters, and
is 0 (not a null) when no rows match. -/
theorem total_spent_eq_sum (db : ExpenseDB) (uid : String)
    (s e : Option String) :
    total_spent db uid s e
      = ((list_expenses db uid s e none none).map (fun r => r.amount)).sum
    ∧ (list_expenses db uid s e none none = [] →
        total_spent db uid s e = 0) := by
  have hperm : List.Perm (list_expenses db uid s e none none)
      (db.rows.filter (matchesFilters uid s e none none)) := sortBy_perm _ _
  constructor
  · exact ((hperm.map (fun r => r.amount)).sum_eq).symm
  · intro hempty
    have hfil : db.rows.filter (matchesFilters uid s e none none) = [] :=
      ((hempty ▸ hperm).nil_eq).symm
    unfold total_spent
    rw [hfil]
    rfl

/-- Witness for C7 over an empty store. -/
theorem total_spent_eq_sum_witness :
    total_spent ⟨[], 1⟩ "u" none none
      = ((list_expenses ⟨[], 1⟩ "u" none none none none).map
          (fun r => r.amount)).sum
    ∧ total_spent ⟨[], 1⟩ "u" none none = 0 :=
  ⟨(total_spent_eq_sum ⟨[], 1⟩ "u" none none).1,
   (total_spent_eq_sum ⟨[], 1⟩ "u" none none).2 rfl⟩

/-! ## Settings store lemmas -/

theorem findSettings_eq_none_iff (db : SettingsDB) (uid : String) :
    findSettings db uid = none ↔ ∀ p ∈ db.rows, (p.1 == uid) = false := by
  simp only [findSettings, Option.map_eq_none', List.find?_eq_none,
    Bool.not_eq_true]

theorem findSettings_append_default (db : SettingsDB) (uid : String)
    (h : findSettings db uid = none) :
    findSettings
      ⟨db.rows ++ [(uid, ⟨DEFAULT_CATEGORIES, DEFAULT_ACCOUNTS, none⟩)]⟩ uid
      = some ⟨DEFAULT_CATEGORIES, DEFAULT_ACCOUNTS, none⟩ := by
  have hnone : db.rows.find? (fun p => p.1 == uid) = none :=
    List.find?_eq_none.mpr (fun p hp => by
      simp [(findSettings_eq_none_iff db uid).mp h p hp])
  simp [findSettings, List.find?_append, hnone]

/-- `get_settings` on a user with no settings row: the default row is
inserted and returned. -/
theorem get_settings_of_none (db : SettingsDB) (uid : String)
    (h : findSettings db uid = none) :
    get_settings db uid = (⟨DEFAULT_CATEGORIES, DEFAULT_ACCOUNTS, none⟩,
      ⟨db.rows ++ [(uid, ⟨DEFAULT_CATEGORIES, DEFAULT_ACCOUNTS, none⟩)]⟩) := by
  simp only [get_settings, ensure_row, h]
  rw [findSettings_append_default db uid h]
  rfl

/-- `get_settings` on a user whose row exists: the row is returned and
the store is untouched. -/
theorem get_settings_of_some (db : SettingsDB) (uid : String)
    (s : SettingsRow) (h : findSettings db uid = some s) :
    get_settings db uid = (s, db) := by
  simp only [get_settings, ensure_row, h, Option.getD_some]

/-- Claim C8: for a user id with no settings row, `get_settings`
creates the row and returns exactly the documented default categories,
an empty account list, and a null monthly budget. -/
theorem get_settings_fresh_defaults (db : SettingsDB) (uid : String)
    (h : findSettings db uid = none) :
    (get_settings db uid).1 = ⟨DEFAULT_CATEGORIES, [], none⟩
    ∧ DEFAULT_CATEGORIES
        = ["Alimentação", "Transporte", "Hospedagem", "Lazer", "Compras", "Outros"]
    ∧ findSettings (get_settings db uid).2 uid
        = some ⟨DEFAULT_CATEGORIES, [], none⟩ := by
  rw [get_settings_of_none db uid h]
  exact ⟨rfl, rfl, findSettings_append_default db uid h⟩

/-- Witness for C8 on an empty settings table. -/
theorem get_settings_fresh_defaults_witness :
    findSettings ⟨[]⟩ "u" = none
    ∧ (get_settings ⟨[]⟩ "u").1 = ⟨DEFAULT_CATEGORIES, [], none⟩ :=
  ⟨rfl, (get_settings_fresh_defaults ⟨[]⟩ "u" rfl).1⟩

/-- Claim C9: for a user id with no settings row, `set_monthly_budget`
updates zero rows — the settings store is left entirely unchanged — and
a subsequent `get_settings` still reports a null monthly budget. -/
theorem set_monthly_budget_no_row (db : SettingsDB) (uid : String)
    (v : Option ℚ) (h : findSettings db uid = none) :
    set_monthly_budget db uid v = db
    ∧ (get_settings (set_monthly_budget db uid v) uid).1.monthly_budget
        = none := by
  have hall := (findSettings_eq_none_iff db uid).mp h
  have hid : set_monthly_budget db uid v = db := by
    unfold set_monthly_budget
    cases db with
    | mk rows =>
      simp only [SettingsDB.mk.injEq]
      rw [List.map_congr_left (fun p hp => ?_), List.map_id]
      rw [if_neg (by simp [hall p hp])]
      rfl
  refine ⟨hid, ?_⟩
  rw [hid, get_settings_of_none db uid h]

/-- Witness for C9 on an empty settings table. -/
theorem set_monthly_budget_no_row_witness :
    findSettings ⟨[]⟩ "u" = none
    ∧ set_monthly_budget ⟨[]⟩ "u" (some 100) = ⟨[]⟩
    ∧ (get_settings (set_monthly_budget ⟨[]⟩ "u" (some 100))
        "u").1.monthly_budget = none :=
  ⟨rfl, (set_monthly_budget_no_row ⟨[]⟩ "u" (some 100) rfl).1,
   (set_monthly_budget_no_row ⟨[]⟩ "u" (some 100) rfl).2⟩

/-- Claim C10: because `add_category`/`add_account` trim their input
before storing while `remove_category`/`remove_account` compare the
given name exactly, a whitespace-padded name is a no-op to remove from
an all-trimmed stored list, and — whenever its trimmed form is already
in that list — a no-op to add as well; each list (categories, accounts)
behaves this way independently, so such an entry can only be removed by
passing its trimmed form. -/
theorem remove_untrimmed_noop (db : SettingsDB) (uid name : String)
    (s : SettingsRow) (hrow : findSettings db uid = some s)
    (hpad : trimStr name ≠ name) :
    ((∀ c ∈ s.categories, trimStr c = c) →
      remove_category db uid name = db
      ∧ (trimStr name ∈ s.categories → add_category db uid name = db))
    ∧ ((∀ c ∈ s.accounts, trimStr c = c) →
      remove_account db uid name = db
      ∧ (trimStr name ∈ s.accounts → add_account db uid name = db)) := by
  have hgs := get_settings_of_some db uid s hrow
  constructor
  · intro htrimc
    have hnc : s.categories.contains name = false := by
      have hnm : name ∉ s.categories := fun hm => hpad (htrimc name hm)
      simp [hnm]
    constructor
    · simp only [remove_category, hgs]
      rw [hnc]
      rfl
    · intro hmemc
      by_cases he : (trimStr name).isEmpty = true
      · simp [add_category, he]
      · have hct : s.categories.contains (trimStr name) = true := by
          simp [hmemc]
        simp only [add_category, hgs]
        rw [if_neg (by simp [he]), hct]
        rfl
  · intro htrima
    have hna : s.accounts.contains name = false := by
      have hnm : name ∉ s.accounts := fun hm => hpad (htrima name hm)
      simp [hnm]
    constructor
    · simp only [remove_account, hgs]
      rw [hna]
      rfl
    · intro hmema
      by_cases he : (trimStr name).isEmpty = true
      · simp [add_account, he]
      · have hat : s.accounts.contains (trimStr name) = true := by
          simp [hmema]
        simp only [add_account, hgs]
        rw [if_neg (by simp [he]), hat]
        rfl

/-- Witness for C10 on a user whose categories hold `"x"` while the
accounts list is still the empty default: the padded name `" x"` can
neither be removed from nor re-added to the categories, and removing it
from the empty accounts list is a no-op too. -/
theorem remove_untrimmed_noop_witness :
    findSettings ⟨[("u", ⟨["x"], [], none⟩)]⟩ "u" = some ⟨["x"], [], none⟩
    ∧ trimStr " x" ≠ " x"
    ∧ trimStr " x" ∈ ["x"]
    ∧ remove_category ⟨[("u", ⟨["x"], [], none⟩)]⟩ "u" " x"
        = ⟨[("u", ⟨["x"], [], none⟩)]⟩
    ∧ add_category ⟨[("u", ⟨["x"], [], none⟩)]⟩ "u" " x"
        = ⟨[("u", ⟨["x"], [], none⟩)]⟩
    ∧ remove_account ⟨[("u", ⟨["x"], [], none⟩)]⟩ "u" " x"
        = ⟨[("u", ⟨["x"], [], none⟩)]⟩ :=
  ⟨by decide, by decide, by decide,
   ((remove_untrimmed_noop ⟨[("u", ⟨["x"], [], none⟩)]⟩ "u" " x"
       ⟨["x"], [], none⟩ (by decide) (by decide)).1 (by decide)).1,
   ((remove_untrimmed_noop ⟨[("u", ⟨["x"], [], none⟩)]⟩ "u" " x"
       ⟨["x"], [], none⟩ (by decide) (by decide)).1 (by decide)).2 (by decide),
   ((remove_untrimmed_noop ⟨[("u", ⟨["x"], [], none⟩)]⟩ "u" " x"
       ⟨["x"], [], none⟩ (by decide) (by decide)).2 (by decide)).1⟩

end TripTracker
